import Mathlib

/-!
Shallow embedding of the assistants-API gateway (src/index.js together with
src/openaiInstance.js): the run-status streaming watcher behind the
stream-run route, the tool-call dispatcher handleToolCalls, the upload-file
handler, and the shared-client rotation performed by the set-api-key route.
Each definition is a direct translation of the corresponding JavaScript;
theorems below settle the specified properties of these operations.
-/

namespace AssistantsGateway

/-- Identity of one axios client instance, as produced by
createOpenAIInstance in src/openaiInstance.js. Only the identity of the
instance matters to the properties proved here. -/
abbrev Client := Nat

/-- The text payload of a message content block: the handler reads the
field value of the field text. -/
structure TextBlock where
  value : String
  deriving Repr, DecidableEq

/-- One content block of an upstream message; the handler reads its field
text. -/
structure ContentBlock where
  text : TextBlock
  deriving Repr, DecidableEq

/-- An upstream thread message, of which the handler reads the content
array. -/
structure Message where
  content : List ContentBlock
  deriving Repr, DecidableEq

/-- A JavaScript runtime failure carried by a rejected promise or a thrown
exception. -/
inductive JsError where
  | typeError (msg : String)
  | referenceError (name : String)
  | httpError (msg : String)
  | writeError
  deriving Repr, DecidableEq

/-- JS evaluation of messages[0].content[0].text.value in the completed
branch of the loop: indexing an empty array yields undefined, and the member
access that follows throws a TypeError, so the expression faults on an empty
message list or an empty content array. -/
def extractLatestText : List Message → Except JsError String
  | [] => Except.error (JsError.typeError "cannot read content of undefined")
  | m :: _ =>
    match m.content with
    | [] => Except.error (JsError.typeError "cannot read text of undefined")
    | b :: _ => Except.ok b.text.value

/-- One server-sent event written by the stream-run handler. The first
three stand for a frame whose data is the JSON object with the matching
type and content fields; done stands for the literal end-of-stream frame. -/
inductive Event where
  | status (content : String)
  | message (content : String)
  | error (content : String)
  | done
  deriving Repr, DecidableEq

/-- One observable action of the stream-run handler: an upstream GET of the
run, an upstream GET of the thread messages, a successful write of one
framed event to the response, the fixed one-second suspension at the end of
a non-terminal iteration, or the final res.end call. -/
inductive TraceItem where
  | fetchRun (c : Client)
  | fetchMessages (c : Client)
  | write (e : Event)
  | sleep (ms : Nat)
  | close
  deriving Repr, DecidableEq

/-- Upstream behavior over the life of one stream request. clientAt n is
the value of the module-level openai binding at the moment poll n runs: the
loop body dereferences that binding anew on every poll, so a set-api-key
swap between polls changes the client used. runStatusVia c n is the outcome
of the GET of the run through client c on poll n, reduced to the status
field the handler reads; messagesVia c n is the outcome of the GET of the
thread messages through client c right after poll n. -/
structure Env where
  clientAt : Nat → Client
  runStatusVia : Client → Nat → Except JsError String
  messagesVia : Client → Nat → Except JsError (List Message)

/-- The triple of failure statuses tested by the else-if branch of the
loop. -/
def isTerminalFailure (s : String) : Bool :=
  s == "failed" || s == "cancelled" || s == "expired"

/-- A status on which the loop breaks: completed or one of the failure
triple. Every other string leaves the loop running. -/
def isTerminal (s : String) : Bool :=
  s == "completed" || isTerminalFailure s

/-- How one iteration of the loop ends, seen from the handler after the
loop: a break statement, a propagated exception, or fuel exhaustion of this
finite unrolling (the run is still being polled). -/
inductive LoopExit where
  | broke
  | fault (e : JsError)
  | fuelOut
  deriving Repr, DecidableEq

/-- The while-true body of pollRunStatus, unrolled fuel times, started at
poll index n having already performed w successful writes. The sink is
modelled from the spec: the Stream Sink collaborator accepts framed chunks
while writable, and a write attempted once it is unwritable faults (sinkOk
w says whether write number w succeeds). Each iteration fetches the run
through the client the openai binding holds at that poll, writes one status
event carrying the raw tag, then either relays the newest message text and
breaks (completed), writes a named error event and breaks (failure triple),
or sleeps one second and continues. Upstream failures and the TypeError of
a malformed message payload are not caught and fault the whole loop. -/
def pollIters (env : Env) (sinkOk : Nat → Bool) :
    Nat → Nat → Nat → List TraceItem × Nat × LoopExit
  | 0, _, w => ([], w, LoopExit.fuelOut)
  | fuel + 1, n, w =>
    let c := env.clientAt n
    match env.runStatusVia c n with
    | Except.error e => ([TraceItem.fetchRun c], w, LoopExit.fault e)
    | Except.ok status =>
      if sinkOk w then
        if status == "completed" then
          match env.messagesVia c n with
          | Except.error e =>
            ([TraceItem.fetchRun c, TraceItem.write (Event.status status),
              TraceItem.fetchMessages c], w + 1, LoopExit.fault e)
          | Except.ok msgs =>
            match extractLatestText msgs with
            | Except.error e =>
              ([TraceItem.fetchRun c, TraceItem.write (Event.status status),
                TraceItem.fetchMessages c], w + 1, LoopExit.fault e)
            | Except.ok txt =>
              if sinkOk (w + 1) then
                ([TraceItem.fetchRun c, TraceItem.write (Event.status status),
                  TraceItem.fetchMessages c, TraceItem.write (Event.message txt)],
                 w + 2, LoopExit.broke)
              else
                ([TraceItem.fetchRun c, TraceItem.write (Event.status status),
                  TraceItem.fetchMessages c], w + 1, LoopExit.fault JsError.writeError)
        else if isTerminalFailure status then
          if sinkOk (w + 1) then
            ([TraceItem.fetchRun c, TraceItem.write (Event.status status),
              TraceItem.write (Event.error ("Run " ++ status))], w + 2, LoopExit.broke)
          else
            ([TraceItem.fetchRun c, TraceItem.write (Event.status status)],
             w + 1, LoopExit.fault JsError.writeError)
        else
          let p := pollIters env sinkOk fuel (n + 1) (w + 1)
          (TraceItem.fetchRun c :: TraceItem.write (Event.status status) ::
            TraceItem.sleep 1000 :: p.1, p.2)
      else ([TraceItem.fetchRun c], w, LoopExit.fault JsError.writeError)

/-- How the whole stream request ends: loop broke and the handler wrote the
end-of-stream frame and called res.end; or an exception propagated to
asyncHandler, so neither the sentinel nor res.end ran; or the finite
unrolling ran out of fuel with the run still non-terminal. -/
inductive StreamOutcome where
  | closed
  | aborted (e : JsError)
  | polling
  deriving Repr, DecidableEq

/-- The stream-run handler after the headers are written: await
pollRunStatus, then write the end-of-stream frame and close the response.
A fault inside the loop is not caught here, so on a fault nothing further
is written and the response is never ended by the handler. -/
def streamRun (env : Env) (sinkOk : Nat → Bool) (fuel : Nat) :
    List TraceItem × StreamOutcome :=
  match pollIters env sinkOk fuel 0 0 with
  | (tr, w, LoopExit.broke) =>
    if sinkOk w then
      (tr ++ [TraceItem.write Event.done, TraceItem.close], StreamOutcome.closed)
    else (tr, StreamOutcome.aborted JsError.writeError)
  | (tr, _, LoopExit.fault e) => (tr, StreamOutcome.aborted e)
  | (tr, _, LoopExit.fuelOut) => (tr, StreamOutcome.polling)

/-- The value of the module-level openai binding at poll n. initial is the
instance created at module load; rots records, in chronological order,
pairs (k, c) meaning: before poll k runs, the set-api-key handler executed
the assignment replacing the binding with the freshly constructed instance
c. Reading the binding at poll n sees the last replacement at or before n. -/
def openaiAt (initial : Client) (rots : List (Nat × Client)) (n : Nat) : Client :=
  List.foldl (fun acc r => if r.1 ≤ n then r.2 else acc) initial rots

/-- The trace produced by k consecutive non-terminal iterations starting at
poll index start: each iteration fetches the run through the client the
binding holds at that poll, writes the status event, and sleeps one second. -/
def runningTraceFrom (env : Env) (st : Nat → String) : Nat → Nat → List TraceItem
  | _, 0 => []
  | start, k + 1 =>
    TraceItem.fetchRun (env.clientAt start) ::
      TraceItem.write (Event.status (st start)) ::
        TraceItem.sleep 1000 :: runningTraceFrom env st (start + 1) k

/-- Content of a status-event write, if the item is one. -/
def statusEventContent : TraceItem → Option String
  | TraceItem.write (Event.status s) => some s
  | _ => none

/-- The client an upstream request of this trace item went through, if the
item is an upstream request. -/
def itemClient : TraceItem → Option Client
  | TraceItem.fetchRun c => some c
  | TraceItem.fetchMessages c => some c
  | _ => none

/-- An event that terminates the stream: a message event or an error
event. -/
def isTerminalEvent : Event → Bool
  | Event.message _ => true
  | Event.error _ => true
  | _ => false

/-- A write of a terminal event. -/
def isTerminalEventWrite : TraceItem → Bool
  | TraceItem.write e => isTerminalEvent e
  | _ => false

/-- A run fetch. -/
def isFetchRunItem : TraceItem → Bool
  | TraceItem.fetchRun _ => true
  | _ => false

/-- A JSON value, as produced by tool functions and consumed by
JSON.stringify in handleToolCalls. -/
inductive Json where
  | str (s : String)
  | num (n : Int)
  | bool (b : Bool)
  | null
  | arr (elems : List Json)
  | obj (fields : List (String × Json))

/-- JSON string escaping of one character, as JSON.stringify performs on the
quote and backslash characters. -/
def escapeJsonChar (c : Char) : String :=
  if c = '"' then "\\\"" else if c = '\\' then "\\\\" else String.singleton c

/-- JSON string escaping. -/
def escapeJsonString (s : String) : String :=
  String.join (s.data.map escapeJsonChar)

mutual

/-- JSON.stringify over the Json values of this development. -/
def Json.stringify : Json → String
  | Json.str s => "\"" ++ escapeJsonString s ++ "\""
  | Json.num n => toString n
  | Json.bool b => if b then "true" else "false"
  | Json.null => "null"
  | Json.arr es => "[" ++ stringifyElems es ++ "]"
  | Json.obj fs => "\x7b" ++ stringifyFields fs ++ "\x7d"

/-- Comma-joined stringification of array elements. -/
def stringifyElems : List Json → String
  | [] => ""
  | [j] => Json.stringify j
  | j :: js => Json.stringify j ++ "," ++ stringifyElems js

/-- Comma-joined stringification of object fields. -/
def stringifyFields : List (String × Json) → String
  | [] => ""
  | [(k, v)] => "\"" ++ escapeJsonString k ++ "\":" ++ Json.stringify v
  | (k, v) :: fs =>
    "\"" ++ escapeJsonString k ++ "\":" ++ Json.stringify v ++ "," ++ stringifyFields fs

end

/-- The function reference inside a tool call, of which the dispatcher
reads the name. -/
structure FunctionRef where
  name : String

/-- One tool call as destructured by handleToolCalls: the fields id,
function and arguments of the element. -/
structure ToolCall where
  id : String
  function : FunctionRef
  arguments : String

/-- One element of the list handleToolCalls resolves to. -/
structure ToolOutput where
  tool_call_id : String
  output : String
  deriving Repr, DecidableEq

/-- The body of the map inside handleToolCalls for one call. g is the
lookup of a global function by name (none when the name does not denote a
function); p is JSON.parse over the raw arguments string, which may throw;
an applied function may itself throw. Every throw inside the try block is
caught and becomes an error object; an unknown name becomes an error object
without throwing; the result is always the record of the call id and the
stringified output. -/
def handleToolCall (g : String → Option (Json → Except String Json))
    (p : String → Except String Json) (call : ToolCall) : ToolOutput :=
  let output : Json :=
    match g call.function.name with
    | some f =>
      match p call.arguments with
      | Except.ok v =>
        match f v with
        | Except.ok res => res
        | Except.error msg =>
          Json.obj [("error", Json.str ("Error executing " ++ call.function.name ++ ": " ++ msg))]
      | Except.error msg =>
        Json.obj [("error", Json.str ("Error executing " ++ call.function.name ++ ": " ++ msg))]
    | none => Json.obj [("error", Json.str ("Unknown function: " ++ call.function.name))]
  { tool_call_id := call.id, output := output.stringify }

/-- handleToolCalls: Promise.all over the per-call map, which preserves
length and order of the input list. -/
def handleToolCalls (g : String → Option (Json → Except String Json))
    (p : String → Except String Json) (tool_calls : List ToolCall) : List ToolOutput :=
  tool_calls.map (handleToolCall g p)

/-- Placeholder tool call for positional list access in statements. -/
def dummyToolCall : ToolCall :=
  { id := "", function := { name := "" }, arguments := "" }

/-- Placeholder tool output for positional list access in statements. -/
def dummyToolOutput : ToolOutput :=
  { tool_call_id := "", output := "" }

/-- The top-level bindings of the module src/index.js: its imports and its
const and let declarations. The identifier OPENAI_API_KEY is not among
them; only the function setApiKey is imported from the key manager, and
dotenv.config only populates process. -/
def indexModuleScope : List String :=
  ["express", "dotenv", "multer", "fs", "path", "rateLimit", "helmet",
   "uuidv4", "cors", "fileURLToPath", "dirname", "FormData", "setApiKey",
   "createOpenAIInstance", "__filename", "__dirname", "app", "openai",
   "currentRateLimit", "currentFileSize", "getLimiter", "getUpload",
   "storage", "errorHandler", "asyncHandler", "handleToolCalls", "PORT"]

/-- Strict-mode evaluation of a bare identifier: a ReferenceError when the
name is bound by no declaration in scope. The value of a bound name is not
needed by the properties proved here and is represented by the name. -/
def resolveIdentifier (scope : List String) (name : String) : Except JsError String :=
  if name ∈ scope then Except.ok name else
    Except.error (JsError.referenceError (name ++ " is not defined"))

/-- The multipart file record multer attaches to the request. -/
structure UploadedFile where
  path : String
  originalname : String
  mimetype : String

/-- Side effects the upload-file handler can perform after accepting a
file. -/
inductive UploadAction where
  | postUpstream
  | unlinkTemp
  | jsonResponse
  deriving Repr, DecidableEq

/-- The try block of the upload-file handler: building the request options
evaluates the identifier OPENAI_API_KEY for the Authorization header before
the upstream post is invoked; on success the temporary file is deleted and
the upstream data is returned for the JSON response. -/
def uploadTryBlock (scope : List String) (upstream : UploadedFile → Except JsError Json)
    (f : UploadedFile) : List UploadAction × Except JsError Json :=
  match resolveIdentifier scope "OPENAI_API_KEY" with
  | Except.error e => ([], Except.error e)
  | Except.ok _ =>
    match upstream f with
    | Except.error e => ([UploadAction.postUpstream], Except.error e)
    | Except.ok respData =>
      ([UploadAction.postUpstream, UploadAction.unlinkTemp, UploadAction.jsonResponse],
       Except.ok respData)

/-- The upload-file handler body: reject when no file was accepted,
otherwise run the try block; any failure inside it is caught and rethrown
as the fixed upload error. -/
def uploadFileHandler (scope : List String) (upstream : UploadedFile → Except JsError Json)
    (file : Option UploadedFile) : List UploadAction × Except String Json :=
  match file with
  | none => ([], Except.error "No file uploaded")
  | some f =>
    match uploadTryBlock scope upstream f with
    | (acts, Except.ok d) => (acts, Except.ok d)
    | (acts, Except.error _) => (acts, Except.error "Failed to upload file to OpenAI")

/-- Status schedule of a run that completes on its third poll. -/
def exStatusCompleted : Nat → String :=
  fun n => if n < 2 then "in_progress" else "completed"

/-- A one-message thread whose newest message has one text block. -/
def exMessages : List Message :=
  [{ content := [{ text := { value := "The area formula is pi r squared." } }] }]

/-- Environment of a run that completes on its third poll. -/
def exEnvCompleted : Env where
  clientAt := fun _ => 0
  runStatusVia := fun _ n => Except.ok (exStatusCompleted n)
  messagesVia := fun _ _ => Except.ok exMessages

/-- Status schedule of a run that fails on its second poll. -/
def exStatusFailed : Nat → String :=
  fun n => if n = 0 then "queued" else "failed"

/-- Environment of a run that fails on its second poll. -/
def exEnvFailed : Env where
  clientAt := fun _ => 0
  runStatusVia := fun _ n => Except.ok (exStatusFailed n)
  messagesVia := fun _ _ => Except.ok []

/-- Environment whose second run fetch is rejected by the network. -/
def exEnvFetchFault : Env where
  clientAt := fun _ => 0
  runStatusVia := fun _ n =>
    if n = 0 then Except.ok "queued" else Except.error (JsError.httpError "socket hang up")
  messagesVia := fun _ _ => Except.ok []

/-- Environment of a run that completes at once while the thread message
list is empty. -/
def exEnvEmptyMessages : Env where
  clientAt := fun _ => 0
  runStatusVia := fun _ _ => Except.ok "completed"
  messagesVia := fun _ _ => Except.ok []

/-- Environment of a run that never leaves a non-terminal status. -/
def exEnvRunning : Env where
  clientAt := fun _ => 0
  runStatusVia := fun _ _ => Except.ok "requires_action"
  messagesVia := fun _ _ => Except.ok []

/-- Environment in which the set-api-key route replaced the shared client
(instance 1) between the first and the second poll of a stream started with
instance 0, the run failing on the second poll. -/
def rotatedEnv : Env where
  clientAt := openaiAt 0 [(1, 1)]
  runStatusVia := fun _ n => Except.ok (if n = 0 then "in_progress" else "failed")
  messagesVia := fun _ _ => Except.ok []

/-- Example global function table for the tool dispatcher: one known
function that succeeds, one that throws. -/
def exGlobals : String → Option (Json → Except String Json) :=
  fun name =>
    if name = "getWeather" then some (fun _ => Except.ok (Json.str "sunny"))
    else if name = "getQuote" then some (fun _ => Except.error "upstream down")
    else none

/-- Example JSON.parse that accepts every argument string as a JSON
string. -/
def exParse : String → Except String Json :=
  fun s => Except.ok (Json.str s)

/-- Example tool-call list: an unknown name followed by a known one. -/
def exToolCalls : List ToolCall :=
  [{ id := "call_1", function := { name := "nope" }, arguments := "\x7b\x7d" },
   { id := "call_2", function := { name := "getWeather" }, arguments := "\x7b\x7d" }]

/-- A non-terminal status is neither completed nor in the failure triple. -/
theorem isTerminal_false_parts {s : String} (h : isTerminal s = false) :
    (s == "completed") = false ∧ isTerminalFailure s = false := by
  unfold isTerminal at h
  exact Bool.or_eq_false_iff.mp h

/-- A member of the failure triple is not the completed status. -/
theorem isTerminalFailure_ne_completed {s : String} (h : isTerminalFailure s = true) :
    (s == "completed") = false := by
  unfold isTerminalFailure at h
  rcases Bool.or_eq_true_iff.mp h with h1 | h1
  · rcases Bool.or_eq_true_iff.mp h1 with h2 | h2 <;>
      simp only [beq_iff_eq] at h2 <;> subst h2 <;> rfl
  · simp only [beq_iff_eq] at h1
    subst h1
    rfl

/-- A rejected run fetch faults the iteration at once: only the fetch is
observable. -/
theorem pollIters_fetchFault (env : Env) (sinkOk : Nat → Bool) (n w fuel : Nat)
    (e : JsError) (hok : env.runStatusVia (env.clientAt n) n = Except.error e) :
    pollIters env sinkOk (fuel + 1) n w =
      ([TraceItem.fetchRun (env.clientAt n)], w, LoopExit.fault e) := by
  simp [pollIters, hok]

/-- A status write attempted on an unwritable sink faults the iteration
right after the fetch. -/
theorem pollIters_statusWriteFault (env : Env) (sinkOk : Nat → Bool) (n w fuel : Nat)
    (s : String) (hok : env.runStatusVia (env.clientAt n) n = Except.ok s)
    (hw : sinkOk w = false) :
    pollIters env sinkOk (fuel + 1) n w =
      ([TraceItem.fetchRun (env.clientAt n)], w, LoopExit.fault JsError.writeError) := by
  simp [pollIters, hok, hw]

/-- A completed poll with a well-formed message payload writes the status
event, fetches the messages, writes the message event and breaks. -/
theorem pollIters_completed (env : Env) (sinkOk : Nat → Bool) (n w fuel : Nat)
    (msgs : List Message) (txt : String)
    (hok : env.runStatusVia (env.clientAt n) n = Except.ok "completed")
    (hmsgs : env.messagesVia (env.clientAt n) n = Except.ok msgs)
    (htxt : extractLatestText msgs = Except.ok txt)
    (hw : sinkOk w = true) (hw1 : sinkOk (w + 1) = true) :
    pollIters env sinkOk (fuel + 1) n w =
      ([TraceItem.fetchRun (env.clientAt n), TraceItem.write (Event.status "completed"),
        TraceItem.fetchMessages (env.clientAt n), TraceItem.write (Event.message txt)],
       w + 2, LoopExit.broke) := by
  simp [pollIters, hok, hmsgs, htxt, hw, hw1]

/-- A completed poll whose message fetch is rejected faults after the
status write and the message fetch. -/
theorem pollIters_messagesFault (env : Env) (sinkOk : Nat → Bool) (n w fuel : Nat)
    (e : JsError)
    (hok : env.runStatusVia (env.clientAt n) n = Except.ok "completed")
    (hmsgs : env.messagesVia (env.clientAt n) n = Except.error e)
    (hw : sinkOk w = true) :
    pollIters env sinkOk (fuel + 1) n w =
      ([TraceItem.fetchRun (env.clientAt n), TraceItem.write (Event.status "completed"),
        TraceItem.fetchMessages (env.clientAt n)], w + 1, LoopExit.fault e) := by
  simp [pollIters, hok, hmsgs, hw]

/-- A completed poll whose fetched payload has no extractable text faults
after the status write and the message fetch. -/
theorem pollIters_extractFault (env : Env) (sinkOk : Nat → Bool) (n w fuel : Nat)
    (msgs : List Message) (e : JsError)
    (hok : env.runStatusVia (env.clientAt n) n = Except.ok "completed")
    (hmsgs : env.messagesVia (env.clientAt n) n = Except.ok msgs)
    (htxt : extractLatestText msgs = Except.error e)
    (hw : sinkOk w = true) :
    pollIters env sinkOk (fuel + 1) n w =
      ([TraceItem.fetchRun (env.clientAt n), TraceItem.write (Event.status "completed"),
        TraceItem.fetchMessages (env.clientAt n)], w + 1, LoopExit.fault e) := by
  simp [pollIters, hok, hmsgs, htxt, hw]

/-- A poll returning a status of the failure triple writes the status event
and the named error event, then breaks. -/
theorem pollIters_terminalFailure (env : Env) (sinkOk : Nat → Bool) (n w fuel : Nat)
    (s : String) (hok : env.runStatusVia (env.clientAt n) n = Except.ok s)
    (hs : isTerminalFailure s = true)
    (hw : sinkOk w = true) (hw1 : sinkOk (w + 1) = true) :
    pollIters env sinkOk (fuel + 1) n w =
      ([TraceItem.fetchRun (env.clientAt n), TraceItem.write (Event.status s),
        TraceItem.write (Event.error ("Run " ++ s))], w + 2, LoopExit.broke) := by
  have hc := isTerminalFailure_ne_completed hs
  simp [pollIters, hok, hs, hc, hw, hw1]

/-- Unrolling k consecutive non-terminal polls with a sink writable for
their k status writes: the trace is the running trace of those polls
followed by whatever the loop does next, write count and exit carried
over. -/
theorem pollIters_running (env : Env) (sinkOk : Nat → Bool) (st : Nat → String) :
    ∀ (k n w fuel : Nat),
    (∀ i, i < k → env.runStatusVia (env.clientAt (n + i)) (n + i) = Except.ok (st (n + i))) →
    (∀ i, i < k → isTerminal (st (n + i)) = false) →
    (∀ i, i < k → sinkOk (w + i) = true) →
    pollIters env sinkOk (k + fuel) n w =
      (runningTraceFrom env st n k ++ (pollIters env sinkOk fuel (n + k) (w + k)).1,
       (pollIters env sinkOk fuel (n + k) (w + k)).2) := by
  intro k
  induction k with
  | zero =>
    intro n w fuel _ _ _
    simp [runningTraceFrom]
  | succ k ih =>
    intro n w fuel hok hrun hsink
    have hok0 : env.runStatusVia (env.clientAt n) n = Except.ok (st n) := by
      have := hok 0 (Nat.succ_pos k)
      simpa using this
    have hrun0 : isTerminal (st n) = false := by
      have := hrun 0 (Nat.succ_pos k)
      simpa using this
    have hsink0 : sinkOk w = true := by
      have := hsink 0 (Nat.succ_pos k)
      simpa using this
    obtain ⟨hnc, hnf⟩ := isTerminal_false_parts hrun0
    have hstep : Nat.succ k + fuel = (k + fuel) + 1 := by omega
    rw [hstep]
    have hrec := ih (n + 1) (w + 1) fuel
      (fun i hi => by
        have := hok (i + 1) (Nat.succ_lt_succ hi)
        simpa [Nat.add_assoc, Nat.add_comm 1 i] using this)
      (fun i hi => by
        have := hrun (i + 1) (Nat.succ_lt_succ hi)
        simpa [Nat.add_assoc, Nat.add_comm 1 i] using this)
      (fun i hi => by
        have := hsink (i + 1) (Nat.succ_lt_succ hi)
        simpa [Nat.add_assoc, Nat.add_comm 1 i] using this)
    have harith1 : n + 1 + k = n + Nat.succ k := by omega
    have harith2 : w + 1 + k = w + Nat.succ k := by omega
    rw [harith1, harith2] at hrec
    simp [pollIters, hok0, hsink0, hnc, hnf, hrec, runningTraceFrom]

/-- Every item of a running trace is a run fetch, a status-event write or
the one-second suspension. -/
theorem mem_runningTraceFrom {env : Env} {st : Nat → String} :
    ∀ {k start it}, it ∈ runningTraceFrom env st start k →
      (∃ c, it = TraceItem.fetchRun c) ∨
        (∃ q, it = TraceItem.write (Event.status q)) ∨ it = TraceItem.sleep 1000 := by
  intro k
  induction k with
  | zero =>
    intro startit it h
    simp [runningTraceFrom] at h
  | succ k ih =>
    intro start it h
    simp only [runningTraceFrom, List.mem_cons] at h
    rcases h with h | h | h | h
    · exact Or.inl ⟨_, h⟩
    · exact Or.inr (Or.inl ⟨_, h⟩)
    · exact Or.inr (Or.inr h)
    · exact ih h

/-- Extending a running trace by one more poll appends the fetch, the
status write and the suspension of that poll. -/
theorem runningTraceFrom_succ (env : Env) (st : Nat → String) :
    ∀ (k start : Nat),
      runningTraceFrom env st start (k + 1) =
        runningTraceFrom env st start k ++
          [TraceItem.fetchRun (env.clientAt (start + k)),
           TraceItem.write (Event.status (st (start + k))), TraceItem.sleep 1000] := by
  intro k
  induction k with
  | zero =>
    intro start
    simp [runningTraceFrom]
  | succ k ih =>
    intro start
    have h1 : runningTraceFrom env st start (k + 1 + 1) =
        TraceItem.fetchRun (env.clientAt start) ::
          TraceItem.write (Event.status (st start)) ::
            TraceItem.sleep 1000 :: runningTraceFrom env st (start + 1) (k + 1) := rfl
    rw [h1, ih (start + 1)]
    have : start + 1 + k = start + (k + 1) := by omega
    rw [this]
    rfl

/-- The status events of a running trace are exactly the statuses of its
polls, in poll order. -/
theorem filterMap_status_runningTraceFrom (env : Env) (st : Nat → String) :
    ∀ (k start : Nat),
      (runningTraceFrom env st start k).filterMap statusEventContent =
        (List.range k).map (fun i => st (start + i)) := by
  intro k
  induction k with
  | zero =>
    intro start
    simp [runningTraceFrom]
  | succ k ih =>
    intro start
    have h1 : ∀ i : Nat, start + 1 + i = start + (i + 1) := by omega
    simp [runningTraceFrom, statusEventContent, ih (start + 1),
      List.range_succ_eq_map, List.map_map, Function.comp, h1]

/-- The upstream requests of a running trace go through the clients the
binding held at its polls, in poll order. -/
theorem filterMap_client_runningTraceFrom (env : Env) (st : Nat → String) :
    ∀ (k start : Nat),
      (runningTraceFrom env st start k).filterMap itemClient =
        (List.range k).map (fun i => env.clientAt (start + i)) := by
  intro k
  induction k with
  | zero =>
    intro start
    simp [runningTraceFrom]
  | succ k ih =>
    intro start
    have h1 : ∀ i : Nat, start + 1 + i = start + (i + 1) := by omega
    simp [runningTraceFrom, itemClient, ih (start + 1),
      List.range_succ_eq_map, List.map_map, Function.comp, h1]

/-- A running trace of k polls holds exactly k run fetches. -/
theorem countP_fetch_runningTraceFrom (env : Env) (st : Nat → String) :
    ∀ (k start : Nat),
      (runningTraceFrom env st start k).countP (fun it => isFetchRunItem it) = k := by
  intro k
  induction k with
  | zero =>
    intro start
    simp [runningTraceFrom]
  | succ k ih =>
    intro start
    have h1 : runningTraceFrom env st start (k + 1) =
        TraceItem.fetchRun (env.clientAt start) ::
          TraceItem.write (Event.status (st start)) ::
            TraceItem.sleep 1000 :: runningTraceFrom env st (start + 1) k := rfl
    rw [h1, List.countP_cons, List.countP_cons, List.countP_cons, ih (start + 1)]
    simp [isFetchRunItem]

/-- Unrolling a stream whose first N polls are non-terminal: the trace of
those polls precedes whatever the loop does from poll N on. -/
theorem streamRun_run_pollIters (env : Env) (st : Nat → String) (N j : Nat)
    (sinkOk : Nat → Bool)
    (hok : ∀ n, n < N → env.runStatusVia (env.clientAt n) n = Except.ok (st n))
    (hpre : ∀ n, n < N → isTerminal (st n) = false)
    (hsink : ∀ i, i < N → sinkOk i = true) :
    pollIters env sinkOk (N + (j + 1)) 0 0 =
      (runningTraceFrom env st 0 N ++ (pollIters env sinkOk (j + 1) N N).1,
       (pollIters env sinkOk (j + 1) N N).2) := by
  have h := pollIters_running env sinkOk st N 0 0 (j + 1)
    (fun i hi => by simpa using hok i hi)
    (fun i hi => by simpa using hpre i hi)
    (fun i hi => by simpa using hsink i hi)
  simpa using h

/-- Full trace of a stream that completes on poll N with a well-formed
message payload. -/
theorem streamRun_completed_full (env : Env) (st : Nat → String) (N j : Nat)
    (msgs : List Message) (txt : String)
    (hok : ∀ n, n < N → env.runStatusVia (env.clientAt n) n = Except.ok (st n))
    (hpre : ∀ n, n < N → isTerminal (st n) = false)
    (hokN : env.runStatusVia (env.clientAt N) N = Except.ok "completed")
    (hmsgs : env.messagesVia (env.clientAt N) N = Except.ok msgs)
    (htxt : extractLatestText msgs = Except.ok txt) :
    streamRun env (fun _ => true) (N + 1 + j) =
      (runningTraceFrom env st 0 N ++
        [TraceItem.fetchRun (env.clientAt N), TraceItem.write (Event.status "completed"),
         TraceItem.fetchMessages (env.clientAt N), TraceItem.write (Event.message txt),
         TraceItem.write Event.done, TraceItem.close],
       StreamOutcome.closed) := by
  have hpref := streamRun_run_pollIters env st N j (fun _ => true) hok hpre (fun _ _ => rfl)
  have hit := pollIters_completed env (fun _ => true) N N j msgs txt hokN hmsgs htxt rfl rfl
  have hfuel : N + 1 + j = N + (j + 1) := by omega
  have hp : pollIters env (fun _ => true) (N + 1 + j) 0 0 =
      (runningTraceFrom env st 0 N ++
        [TraceItem.fetchRun (env.clientAt N), TraceItem.write (Event.status "completed"),
         TraceItem.fetchMessages (env.clientAt N), TraceItem.write (Event.message txt)],
       N + 2, LoopExit.broke) := by
    rw [hfuel, hpref, hit]
  simp [streamRun, hp]

/-- Full trace of a stream whose run reaches a failure status on poll N. -/
theorem streamRun_failure_full (env : Env) (st : Nat → String) (N j : Nat)
    (hok : ∀ n, n < N → env.runStatusVia (env.clientAt n) n = Except.ok (st n))
    (hpre : ∀ n, n < N → isTerminal (st n) = false)
    (hokN : env.runStatusVia (env.clientAt N) N = Except.ok (st N))
    (hs : isTerminalFailure (st N) = true) :
    streamRun env (fun _ => true) (N + 1 + j) =
      (runningTraceFrom env st 0 N ++
        [TraceItem.fetchRun (env.clientAt N), TraceItem.write (Event.status (st N)),
         TraceItem.write (Event.error ("Run " ++ st N)),
         TraceItem.write Event.done, TraceItem.close],
       StreamOutcome.closed) := by
  have hpref := streamRun_run_pollIters env st N j (fun _ => true) hok hpre (fun _ _ => rfl)
  have hit := pollIters_terminalFailure env (fun _ => true) N N j (st N) hokN hs rfl rfl
  have hfuel : N + 1 + j = N + (j + 1) := by omega
  have hp : pollIters env (fun _ => true) (N + 1 + j) 0 0 =
      (runningTraceFrom env st 0 N ++
        [TraceItem.fetchRun (env.clientAt N), TraceItem.write (Event.status (st N)),
         TraceItem.write (Event.error ("Run " ++ st N))],
       N + 2, LoopExit.broke) := by
    rw [hfuel, hpref, hit]
  simp [streamRun, hp]

/-- Full trace of a stream whose run fetch is rejected on poll N. -/
theorem streamRun_fetchFault_full (env : Env) (st : Nat → String) (N j : Nat) (e : JsError)
    (hok : ∀ n, n < N → env.runStatusVia (env.clientAt n) n = Except.ok (st n))
    (hpre : ∀ n, n < N → isTerminal (st n) = false)
    (hokN : env.runStatusVia (env.clientAt N) N = Except.error e) :
    streamRun env (fun _ => true) (N + 1 + j) =
      (runningTraceFrom env st 0 N ++ [TraceItem.fetchRun (env.clientAt N)],
       StreamOutcome.aborted e) := by
  have hpref := streamRun_run_pollIters env st N j (fun _ => true) hok hpre (fun _ _ => rfl)
  have hit := pollIters_fetchFault env (fun _ => true) N N j e hokN
  have hfuel : N + 1 + j = N + (j + 1) := by omega
  have hp : pollIters env (fun _ => true) (N + 1 + j) 0 0 =
      (runningTraceFrom env st 0 N ++ [TraceItem.fetchRun (env.clientAt N)],
       N, LoopExit.fault e) := by
    rw [hfuel, hpref, hit]
  simp [streamRun, hp]

/-- Full trace of a stream that completes on poll N while the message fetch
is rejected. -/
theorem streamRun_messagesFault_full (env : Env) (st : Nat → String) (N j : Nat) (e : JsError)
    (hok : ∀ n, n < N → env.runStatusVia (env.clientAt n) n = Except.ok (st n))
    (hpre : ∀ n, n < N → isTerminal (st n) = false)
    (hokN : env.runStatusVia (env.clientAt N) N = Except.ok "completed")
    (hmsgs : env.messagesVia (env.clientAt N) N = Except.error e) :
    streamRun env (fun _ => true) (N + 1 + j) =
      (runningTraceFrom env st 0 N ++
        [TraceItem.fetchRun (env.clientAt N), TraceItem.write (Event.status "completed"),
         TraceItem.fetchMessages (env.clientAt N)],
       StreamOutcome.aborted e) := by
  have hpref := streamRun_run_pollIters env st N j (fun _ => true) hok hpre (fun _ _ => rfl)
  have hit := pollIters_messagesFault env (fun _ => true) N N j e hokN hmsgs rfl
  have hfuel : N + 1 + j = N + (j + 1) := by omega
  have hp : pollIters env (fun _ => true) (N + 1 + j) 0 0 =
      (runningTraceFrom env st 0 N ++
        [TraceItem.fetchRun (env.clientAt N), TraceItem.write (Event.status "completed"),
         TraceItem.fetchMessages (env.clientAt N)],
       N + 1, LoopExit.fault e) := by
    rw [hfuel, hpref, hit]
  simp [streamRun, hp]

/-- Full trace of a stream that completes on poll N while the fetched
message payload is malformed. -/
theorem streamRun_extractFault_full (env : Env) (st : Nat → String) (N j : Nat)
    (msgs : List Message) (e : JsError)
    (hok : ∀ n, n < N → env.runStatusVia (env.clientAt n) n = Except.ok (st n))
    (hpre : ∀ n, n < N → isTerminal (st n) = false)
    (hokN : env.runStatusVia (env.clientAt N) N = Except.ok "completed")
    (hmsgs : env.messagesVia (env.clientAt N) N = Except.ok msgs)
    (htxt : extractLatestText msgs = Except.error e) :
    streamRun env (fun _ => true) (N + 1 + j) =
      (runningTraceFrom env st 0 N ++
        [TraceItem.fetchRun (env.clientAt N), TraceItem.write (Event.status "completed"),
         TraceItem.fetchMessages (env.clientAt N)],
       StreamOutcome.aborted e) := by
  have hpref := streamRun_run_pollIters env st N j (fun _ => true) hok hpre (fun _ _ => rfl)
  have hit := pollIters_extractFault env (fun _ => true) N N j msgs e hokN hmsgs htxt rfl
  have hfuel : N + 1 + j = N + (j + 1) := by omega
  have hp : pollIters env (fun _ => true) (N + 1 + j) 0 0 =
      (runningTraceFrom env st 0 N ++
        [TraceItem.fetchRun (env.clientAt N), TraceItem.write (Event.status "completed"),
         TraceItem.fetchMessages (env.clientAt N)],
       N + 1, LoopExit.fault e) := by
    rw [hfuel, hpref, hit]
  simp [streamRun, hp]

/-- Full trace of a stream whose sink stops accepting writes after its
first w0 writes: the status write of poll w0 faults, so after the sink
broke the loop performs exactly one further run fetch and stops. -/
theorem streamRun_sinkFault_full (env : Env) (st : Nat → String) (w0 j : Nat)
    (hok : ∀ n, n ≤ w0 → env.runStatusVia (env.clientAt n) n = Except.ok (st n))
    (hpre : ∀ n, n < w0 → isTerminal (st n) = false) :
    streamRun env (fun w => decide (w < w0)) (w0 + 1 + j) =
      (runningTraceFrom env st 0 w0 ++ [TraceItem.fetchRun (env.clientAt w0)],
       StreamOutcome.aborted JsError.writeError) := by
  have hpref := streamRun_run_pollIters env st w0 j (fun w => decide (w < w0))
    (fun n hn => hok n (le_of_lt hn)) hpre
    (fun i hi => by simpa using hi)
  have hw : decide (w0 < w0) = false := by simp
  have hit := pollIters_statusWriteFault env (fun w => decide (w < w0)) w0 w0 j (st w0)
    (hok w0 le_rfl) hw
  have hfuel : w0 + 1 + j = w0 + (j + 1) := by omega
  have hp : pollIters env (fun w => decide (w < w0)) (w0 + 1 + j) 0 0 =
      (runningTraceFrom env st 0 w0 ++ [TraceItem.fetchRun (env.clientAt w0)],
       w0, LoopExit.fault JsError.writeError) := by
    rw [hfuel, hpref, hit]
  simp [streamRun, hp]

/-- Full trace of a stream none of whose fuel polls is terminal: the loop
is still polling, having slept between consecutive polls. -/
theorem streamRun_nonterminal_full (env : Env) (st : Nat → String) (fuel : Nat)
    (hok : ∀ n, env.runStatusVia (env.clientAt n) n = Except.ok (st n))
    (hpre : ∀ n, isTerminal (st n) = false) :
    streamRun env (fun _ => true) fuel =
      (runningTraceFrom env st 0 fuel, StreamOutcome.polling) := by
  have h := pollIters_running env (fun _ => true) st fuel 0 0 0
    (fun i _ => by simpa using hok i) (fun i _ => by simpa using hpre i) (fun i _ => rfl)
  have hp : pollIters env (fun _ => true) fuel 0 0 =
      (runningTraceFrom env st 0 fuel, 0 + fuel, LoopExit.fuelOut) := by
    have h0 : fuel + 0 = fuel := by omega
    rw [h0] at h
    simpa [pollIters] using h
  simp [streamRun, hp]

/-- C1: for every run whose status sequence reaches a terminal tag at poll
N, the stream writes exactly one terminal event (a message event on
completed, an error event on the failure triple), then exactly one
end-of-stream frame, performs no further writes after it, and closes the
sink: the whole trace is a terminal-event-free part, the terminal event,
the done frame and the close, in that order. -/
theorem streamRun_emits_single_terminal_then_done
    (env : Env) (st : Nat → String) (N j : Nat)
    (hok : ∀ n, n ≤ N → env.runStatusVia (env.clientAt n) n = Except.ok (st n))
    (hpre : ∀ n, n < N → isTerminal (st n) = false)
    (hterm : isTerminal (st N) = true)
    (hmsg : st N = "completed" → ∃ msgs txt,
      env.messagesVia (env.clientAt N) N = Except.ok msgs ∧
        extractLatestText msgs = Except.ok txt) :
    ∃ pre term,
      (streamRun env (fun _ => true) (N + 1 + j)).1 =
        pre ++ [TraceItem.write term, TraceItem.write Event.done, TraceItem.close] ∧
      isTerminalEvent term = true ∧
      (st N = "completed" → ∃ s, term = Event.message s) ∧
      (isTerminalFailure (st N) = true → term = Event.error ("Run " ++ st N)) ∧
      (∀ it ∈ pre, isTerminalEventWrite it = false ∧
        it ≠ TraceItem.write Event.done ∧ it ≠ TraceItem.close) ∧
      (streamRun env (fun _ => true) (N + 1 + j)).2 = StreamOutcome.closed := by
  have hterm2 : (st N == "completed") = true ∨ isTerminalFailure (st N) = true := by
    unfold isTerminal at hterm
    exact Bool.or_eq_true_iff.mp hterm
  rcases hterm2 with hc | hf
  · have hceq : st N = "completed" := beq_iff_eq.mp hc
    obtain ⟨msgs, txt, hmsgs, htxt⟩ := hmsg hceq
    have hokN : env.runStatusVia (env.clientAt N) N = Except.ok "completed" := by
      rw [← hceq]
      exact hok N le_rfl
    have hfull := streamRun_completed_full env st N j msgs txt
      (fun n hn => hok n (le_of_lt hn)) hpre hokN hmsgs htxt
    refine ⟨runningTraceFrom env st 0 N ++
      [TraceItem.fetchRun (env.clientAt N), TraceItem.write (Event.status "completed"),
       TraceItem.fetchMessages (env.clientAt N)], Event.message txt, ?_, rfl,
      fun _ => ⟨txt, rfl⟩, ?_, ?_, ?_⟩
    · rw [hfull]
      simp
    · intro hfail
      rw [hceq] at hfail
      exact absurd hfail (by decide)
    · intro it hit
      rcases List.mem_append.mp hit with h | h
      · rcases mem_runningTraceFrom h with ⟨c, rfl⟩ | ⟨q, rfl⟩ | rfl <;>
          exact ⟨rfl, by simp, by simp⟩
      · simp only [List.mem_cons, List.mem_singleton, List.not_mem_nil, or_false] at h
        rcases h with rfl | rfl | rfl <;> exact ⟨rfl, by simp, by simp⟩
    · rw [hfull]
  · have hokN : env.runStatusVia (env.clientAt N) N = Except.ok (st N) := hok N le_rfl
    have hfull := streamRun_failure_full env st N j
      (fun n hn => hok n (le_of_lt hn)) hpre hokN hf
    refine ⟨runningTraceFrom env st 0 N ++
      [TraceItem.fetchRun (env.clientAt N), TraceItem.write (Event.status (st N))],
      Event.error ("Run " ++ st N), ?_, rfl, ?_, fun _ => rfl, ?_, ?_⟩
    · rw [hfull]
      simp
    · intro hceq
      rw [hceq] at hf
      exact absurd hf (by decide)
    · intro it hit
      rcases List.mem_append.mp hit with h | h
      · rcases mem_runningTraceFrom h with ⟨c, rfl⟩ | ⟨q, rfl⟩ | rfl <;>
          exact ⟨rfl, by simp, by simp⟩
      · simp only [List.mem_cons, List.mem_singleton, List.not_mem_nil, or_false] at h
        rcases h with rfl | rfl <;> exact ⟨rfl, by simp, by simp⟩
    · rw [hfull]

/-- Witness for C1: a run going in-progress, in-progress, completed closes
the stream cleanly. -/
theorem streamRun_emits_single_terminal_then_done_witness :
    (streamRun exEnvCompleted (fun _ => true) 3).2 = StreamOutcome.closed := by
  obtain ⟨pre, term, h1, h2, h3, h4, h5, h6⟩ :=
    streamRun_emits_single_terminal_then_done exEnvCompleted exStatusCompleted 2 0
      (fun n _ => rfl) (by intro n hn; interval_cases n <;> decide) (by decide)
      (fun _ => ⟨exMessages, "The area formula is pi r squared.", rfl, rfl⟩)
  exact h6

/-- C2: every poll writes exactly one status event carrying the exact tag
returned by that poll, the status events appear in poll order, and the
status write of the terminal poll precedes all of its terminal handling. -/
theorem streamRun_status_events_follow_polls
    (env : Env) (st : Nat → String) (N j : Nat)
    (hok : ∀ n, n ≤ N → env.runStatusVia (env.clientAt n) n = Except.ok (st n))
    (hpre : ∀ n, n < N → isTerminal (st n) = false)
    (hterm : isTerminal (st N) = true)
    (hmsg : st N = "completed" → ∃ msgs txt,
      env.messagesVia (env.clientAt N) N = Except.ok msgs ∧
        extractLatestText msgs = Except.ok txt) :
    (streamRun env (fun _ => true) (N + 1 + j)).1.filterMap statusEventContent =
      (List.range (N + 1)).map st ∧
    ∃ rest,
      (streamRun env (fun _ => true) (N + 1 + j)).1 =
        runningTraceFrom env st 0 N ++
          TraceItem.fetchRun (env.clientAt N) ::
            TraceItem.write (Event.status (st N)) :: rest ∧
      ∀ it ∈ runningTraceFrom env st 0 N, isTerminalEventWrite it = false := by
  have hterm2 : (st N == "completed") = true ∨ isTerminalFailure (st N) = true := by
    unfold isTerminal at hterm
    exact Bool.or_eq_true_iff.mp hterm
  have hmem : ∀ it ∈ runningTraceFrom env st 0 N, isTerminalEventWrite it = false := by
    intro it hit
    rcases mem_runningTraceFrom hit with ⟨c, rfl⟩ | ⟨q, rfl⟩ | rfl <;> rfl
  rcases hterm2 with hc | hf
  · have hceq : st N = "completed" := beq_iff_eq.mp hc
    obtain ⟨msgs, txt, hmsgs, htxt⟩ := hmsg hceq
    have hokN : env.runStatusVia (env.clientAt N) N = Except.ok "completed" := by
      rw [← hceq]
      exact hok N le_rfl
    have hfull := streamRun_completed_full env st N j msgs txt
      (fun n hn => hok n (le_of_lt hn)) hpre hokN hmsgs htxt
    constructor
    · rw [hfull]
      rw [List.filterMap_append, filterMap_status_runningTraceFrom]
      simp [statusEventContent, List.range_succ, hceq]
    · refine ⟨[TraceItem.fetchMessages (env.clientAt N), TraceItem.write (Event.message txt),
        TraceItem.write Event.done, TraceItem.close], ?_, hmem⟩
      rw [hfull]
      simp [hceq]
  · have hokN : env.runStatusVia (env.clientAt N) N = Except.ok (st N) := hok N le_rfl
    have hfull := streamRun_failure_full env st N j
      (fun n hn => hok n (le_of_lt hn)) hpre hokN hf
    constructor
    · rw [hfull]
      rw [List.filterMap_append, filterMap_status_runningTraceFrom]
      simp [statusEventContent, List.range_succ]
    · refine ⟨[TraceItem.write (Event.error ("Run " ++ st N)),
        TraceItem.write Event.done, TraceItem.close], ?_, hmem⟩
      rw [hfull]

/-- Witness for C2: a run going queued then failed produces exactly the
status events queued, failed in that order. -/
theorem streamRun_status_events_follow_polls_witness :
    (streamRun exEnvFailed (fun _ => true) 2).1.filterMap statusEventContent =
      (List.range 2).map exStatusFailed :=
  (streamRun_status_events_follow_polls exEnvFailed exStatusFailed 1 0
    (fun n _ => rfl) (by intro n hn; interval_cases n <;> decide) (by decide)
    (fun h => absurd h (by decide))).1

/-- C3: when a poll returns completed and the fetched thread message list
is non-empty with a non-empty content array, the emitted message event
carries the text value of the first content block of the first (newest)
message, and the loop exits: only the end-of-stream frame and the close
follow. -/
theorem streamRun_completed_relays_first_message_text
    (env : Env) (st : Nat → String) (N j : Nat)
    (hok : ∀ n, n ≤ N → env.runStatusVia (env.clientAt n) n = Except.ok (st n))
    (hpre : ∀ n, n < N → isTerminal (st n) = false)
    (hcomp : st N = "completed")
    (m : Message) (ms : List Message) (b : ContentBlock) (bs : List ContentBlock)
    (hmsgs : env.messagesVia (env.clientAt N) N = Except.ok (m :: ms))
    (hblocks : m.content = b :: bs) :
    (streamRun env (fun _ => true) (N + 1 + j)).1 =
      runningTraceFrom env st 0 N ++
        [TraceItem.fetchRun (env.clientAt N), TraceItem.write (Event.status "completed"),
         TraceItem.fetchMessages (env.clientAt N),
         TraceItem.write (Event.message b.text.value),
         TraceItem.write Event.done, TraceItem.close] ∧
    (streamRun env (fun _ => true) (N + 1 + j)).2 = StreamOutcome.closed := by
  have htxt : extractLatestText (m :: ms) = Except.ok b.text.value := by
    simp [extractLatestText, hblocks]
  have hokN : env.runStatusVia (env.clientAt N) N = Except.ok "completed" := by
    rw [← hcomp]
    exact hok N le_rfl
  have hfull := streamRun_completed_full env st N j (m :: ms) b.text.value
    (fun n hn => hok n (le_of_lt hn)) hpre hokN hmsgs htxt
  rw [hfull]
  exact ⟨rfl, rfl⟩

/-- Witness for C3: the completed run relays the text of the newest
message. -/
theorem streamRun_completed_relays_first_message_text_witness :
    (streamRun exEnvCompleted (fun _ => true) 3).1 =
      runningTraceFrom exEnvCompleted exStatusCompleted 0 2 ++
        [TraceItem.fetchRun 0, TraceItem.write (Event.status "completed"),
         TraceItem.fetchMessages 0,
         TraceItem.write (Event.message "The area formula is pi r squared."),
         TraceItem.write Event.done, TraceItem.close] :=
  (streamRun_completed_relays_first_message_text exEnvCompleted exStatusCompleted 2 0
    (fun n _ => rfl) (by intro n hn; interval_cases n <;> decide) (by decide)
    { content := [{ text := { value := "The area formula is pi r squared." } }] } []
    { text := { value := "The area formula is pi r squared." } } [] rfl rfl).1

/-- C4: when a poll returns failed, cancelled or expired, the stream
writes, without raising, exactly one error event naming that status (the
content is the word Run followed by the tag), then exits the loop and
closes cleanly. -/
theorem streamRun_terminal_failure_emits_named_error
    (env : Env) (st : Nat → String) (N j : Nat)
    (hok : ∀ n, n ≤ N → env.runStatusVia (env.clientAt n) n = Except.ok (st n))
    (hpre : ∀ n, n < N → isTerminal (st n) = false)
    (hfail : isTerminalFailure (st N) = true) :
    (streamRun env (fun _ => true) (N + 1 + j)).1 =
      runningTraceFrom env st 0 N ++
        [TraceItem.fetchRun (env.clientAt N), TraceItem.write (Event.status (st N)),
         TraceItem.write (Event.error ("Run " ++ st N)),
         TraceItem.write Event.done, TraceItem.close] ∧
    (streamRun env (fun _ => true) (N + 1 + j)).2 = StreamOutcome.closed ∧
    (st N = "failed" → "Run " ++ st N = "Run failed") ∧
    (st N = "cancelled" → "Run " ++ st N = "Run cancelled") ∧
    (st N = "expired" → "Run " ++ st N = "Run expired") := by
  have hokN : env.runStatusVia (env.clientAt N) N = Except.ok (st N) := hok N le_rfl
  have hfull := streamRun_failure_full env st N j
    (fun n hn => hok n (le_of_lt hn)) hpre hokN hfail
  rw [hfull]
  refine ⟨rfl, rfl, ?_, ?_, ?_⟩ <;> intro h <;> rw [h] <;> decide

/-- Witness for C4: a run going queued then failed yields the error event
Run failed and a clean close. -/
theorem streamRun_terminal_failure_emits_named_error_witness :
    (streamRun exEnvFailed (fun _ => true) 2).1 =
      runningTraceFrom exEnvFailed exStatusFailed 0 1 ++
        [TraceItem.fetchRun 0, TraceItem.write (Event.status (exStatusFailed 1)),
         TraceItem.write (Event.error ("Run " ++ exStatusFailed 1)),
         TraceItem.write Event.done, TraceItem.close] :=
  (streamRun_terminal_failure_emits_named_error exEnvFailed exStatusFailed 1 0
    (fun n _ => rfl) (by intro n hn; interval_cases n <;> decide) (by decide)).1

/-- No item of a running trace is an error-event write, the end-of-stream
frame or the close. -/
theorem runningTraceFrom_no_terminal (env : Env) (st : Nat → String) (k start : Nat) :
    ∀ it ∈ runningTraceFrom env st start k,
      (∀ s, it ≠ TraceItem.write (Event.error s)) ∧
      it ≠ TraceItem.write Event.done ∧ it ≠ TraceItem.close := by
  intro it hit
  rcases mem_runningTraceFrom hit with ⟨c, rfl⟩ | ⟨q, rfl⟩ | rfl <;>
    exact ⟨fun s => by simp, by simp, by simp⟩

/-- C5: a failure inside the loop other than a terminal run status (a
rejected run fetch on any poll; or, after a completed status, a rejected
message fetch or a malformed or empty message payload) is not caught: the
stream aborts, writing no error event, no end-of-stream frame, and never
closing the response. -/
theorem streamRun_poll_failure_aborts_without_sentinel
    (env : Env) (st : Nat → String) (N j : Nat)
    (hok : ∀ n, n < N → env.runStatusVia (env.clientAt n) n = Except.ok (st n))
    (hpre : ∀ n, n < N → isTerminal (st n) = false)
    (hcase :
      (∃ e, env.runStatusVia (env.clientAt N) N = Except.error e) ∨
      (env.runStatusVia (env.clientAt N) N = Except.ok "completed" ∧
        ((∃ e, env.messagesVia (env.clientAt N) N = Except.error e) ∨
         (∃ msgs e, env.messagesVia (env.clientAt N) N = Except.ok msgs ∧
           extractLatestText msgs = Except.error e)))) :
    (∃ e, (streamRun env (fun _ => true) (N + 1 + j)).2 = StreamOutcome.aborted e) ∧
    (∀ s, TraceItem.write (Event.error s) ∉ (streamRun env (fun _ => true) (N + 1 + j)).1) ∧
    TraceItem.write Event.done ∉ (streamRun env (fun _ => true) (N + 1 + j)).1 ∧
    TraceItem.close ∉ (streamRun env (fun _ => true) (N + 1 + j)).1 := by
  have hshape : ∃ e tail,
      streamRun env (fun _ => true) (N + 1 + j) =
        (runningTraceFrom env st 0 N ++ tail, StreamOutcome.aborted e) ∧
      ∀ it ∈ tail, (∀ s, it ≠ TraceItem.write (Event.error s)) ∧
        it ≠ TraceItem.write Event.done ∧ it ≠ TraceItem.close := by
    rcases hcase with ⟨e, he⟩ | ⟨hcomp, hmc⟩
    · refine ⟨e, [TraceItem.fetchRun (env.clientAt N)],
        streamRun_fetchFault_full env st N j e hok hpre he, ?_⟩
      intro it hit
      simp only [List.mem_singleton] at hit
      subst hit
      exact ⟨fun s => by simp, by simp, by simp⟩
    · rcases hmc with ⟨e, hmsgs⟩ | ⟨msgs, e, hmsgs, htxt⟩
      · refine ⟨e, [TraceItem.fetchRun (env.clientAt N),
          TraceItem.write (Event.status "completed"), TraceItem.fetchMessages (env.clientAt N)],
          streamRun_messagesFault_full env st N j e hok hpre hcomp hmsgs, ?_⟩
        intro it hit
        simp only [List.mem_cons, List.mem_singleton, List.not_mem_nil, or_false] at hit
        rcases hit with rfl | rfl | rfl <;>
          exact ⟨fun s => by simp, by simp, by simp⟩
      · refine ⟨e, [TraceItem.fetchRun (env.clientAt N),
          TraceItem.write (Event.status "completed"), TraceItem.fetchMessages (env.clientAt N)],
          streamRun_extractFault_full env st N j msgs e hok hpre hcomp hmsgs htxt, ?_⟩
        intro it hit
        simp only [List.mem_cons, List.mem_singleton, List.not_mem_nil, or_false] at hit
        rcases hit with rfl | rfl | rfl <;>
          exact ⟨fun s => by simp, by simp, by simp⟩
  obtain ⟨e, tail, hfull, htail⟩ := hshape
  have htr : (streamRun env (fun _ => true) (N + 1 + j)).1 =
      runningTraceFrom env st 0 N ++ tail := by rw [hfull]
  refine ⟨⟨e, by rw [hfull]⟩, ?_, ?_, ?_⟩
  · intro s hmem
    rw [htr] at hmem
    rcases List.mem_append.mp hmem with h | h
    · exact (runningTraceFrom_no_terminal env st N 0 _ h).1 s rfl
    · exact (htail _ h).1 s rfl
  · intro hmem
    rw [htr] at hmem
    rcases List.mem_append.mp hmem with h | h
    · exact (runningTraceFrom_no_terminal env st N 0 _ h).2.1 rfl
    · exact (htail _ h).2.1 rfl
  · intro hmem
    rw [htr] at hmem
    rcases List.mem_append.mp hmem with h | h
    · exact (runningTraceFrom_no_terminal env st N 0 _ h).2.2 rfl
    · exact (htail _ h).2.2 rfl

/-- Witness for C5: a run completing at once over an empty thread message
list aborts the stream with no error event and no end-of-stream frame. -/
theorem streamRun_poll_failure_aborts_without_sentinel_witness :
    (∃ e, (streamRun exEnvEmptyMessages (fun _ => true) 1).2 = StreamOutcome.aborted e) ∧
    TraceItem.write Event.done ∉ (streamRun exEnvEmptyMessages (fun _ => true) 1).1 := by
  obtain ⟨h1, h2, h3, h4⟩ :=
    streamRun_poll_failure_aborts_without_sentinel exEnvEmptyMessages (fun _ => "completed")
      0 0 (fun n hn => absurd hn (by omega)) (fun n hn => absurd hn (by omega))
      (Or.inr ⟨rfl, Or.inr ⟨[], JsError.typeError "cannot read content of undefined", rfl, rfl⟩⟩)
  exact ⟨h1, h3⟩

/-- C6: when the sink stops accepting writes after its first w0 writes
(client disconnect mid-stream), the loop faults on its very next write
attempt: it performs exactly one further run fetch (the one of the poll
whose status write fails, one polling interval later) and stops, the stream
aborting. -/
theorem streamRun_unwritable_sink_halts_polling
    (env : Env) (st : Nat → String) (w0 j : Nat)
    (hok : ∀ n, n ≤ w0 → env.runStatusVia (env.clientAt n) n = Except.ok (st n))
    (hpre : ∀ n, n < w0 → isTerminal (st n) = false) :
    (streamRun env (fun w => decide (w < w0)) (w0 + 1 + j)).1 =
      runningTraceFrom env st 0 w0 ++ [TraceItem.fetchRun (env.clientAt w0)] ∧
    (streamRun env (fun w => decide (w < w0)) (w0 + 1 + j)).2 =
      StreamOutcome.aborted JsError.writeError ∧
    ((streamRun env (fun w => decide (w < w0)) (w0 + 1 + j)).1.countP
      (fun it => isFetchRunItem it)) = w0 + 1 := by
  have hfull := streamRun_sinkFault_full env st w0 j hok hpre
  have htr : (streamRun env (fun w => decide (w < w0)) (w0 + 1 + j)).1 =
      runningTraceFrom env st 0 w0 ++ [TraceItem.fetchRun (env.clientAt w0)] := by
    rw [hfull]
  refine ⟨htr, by rw [hfull], ?_⟩
  rw [htr, List.countP_append, countP_fetch_runningTraceFrom]
  simp [isFetchRunItem]

/-- Witness for C6: with the sink unwritable from its second write on, the
loop performs exactly two run fetches and aborts. -/
theorem streamRun_unwritable_sink_halts_polling_witness :
    (streamRun exEnvRunning (fun w => decide (w < 1)) 2).2 =
      StreamOutcome.aborted JsError.writeError :=
  (streamRun_unwritable_sink_halts_polling exEnvRunning (fun _ => "requires_action") 1 0
    (fun n _ => rfl)
    (fun n _ => (by decide : isTerminal "requires_action" = false))).2.1

/-- C8: a run that never reaches a terminal tag (any unknown status string
counts as still running) is polled indefinitely: for every finite unrolling
the loop is still polling, has performed one run fetch per unit of fuel
with no end-of-stream frame ever written, and each further poll adds one
more fetch, one status event and the fixed one-second suspension. -/
theorem streamRun_nonterminal_never_done
    (env : Env) (st : Nat → String) (fuel : Nat)
    (hok : ∀ n, env.runStatusVia (env.clientAt n) n = Except.ok (st n))
    (hpre : ∀ n, isTerminal (st n) = false) :
    (streamRun env (fun _ => true) fuel).2 = StreamOutcome.polling ∧
    (streamRun env (fun _ => true) fuel).1 = runningTraceFrom env st 0 fuel ∧
    ((streamRun env (fun _ => true) fuel).1.countP (fun it => isFetchRunItem it)) = fuel ∧
    TraceItem.write Event.done ∉ (streamRun env (fun _ => true) fuel).1 ∧
    (∀ n, (streamRun env (fun _ => true) (n + 1)).1 =
      (streamRun env (fun _ => true) n).1 ++
        [TraceItem.fetchRun (env.clientAt n), TraceItem.write (Event.status (st n)),
         TraceItem.sleep 1000]) := by
  have hfull := streamRun_nonterminal_full env st fuel hok hpre
  have htr : (streamRun env (fun _ => true) fuel).1 = runningTraceFrom env st 0 fuel := by
    rw [hfull]
  refine ⟨by rw [hfull], htr, ?_, ?_, ?_⟩
  · rw [htr, countP_fetch_runningTraceFrom]
  · rw [htr]
    intro hmem
    exact (runningTraceFrom_no_terminal env st fuel 0 _ hmem).2.1 rfl
  · intro n
    have h1 := streamRun_nonterminal_full env st (n + 1) hok hpre
    have h2 := streamRun_nonterminal_full env st n hok hpre
    have htr1 : (streamRun env (fun _ => true) (n + 1)).1 =
        runningTraceFrom env st 0 (n + 1) := by rw [h1]
    have htr2 : (streamRun env (fun _ => true) n).1 =
        runningTraceFrom env st 0 n := by rw [h2]
    rw [htr1, htr2, runningTraceFrom_succ]
    simp

/-- Witness for C8: a run stuck on the status requires-action is still
being polled after two unrolled iterations, the sentinel never written. -/
theorem streamRun_nonterminal_never_done_witness :
    (streamRun exEnvRunning (fun _ => true) 2).2 = StreamOutcome.polling :=
  (streamRun_nonterminal_never_done exEnvRunning (fun _ => "requires_action") 2
    (fun n => rfl)
    (fun n => (by decide : isTerminal "requires_action" = false))).1

/-- Counterexample to C7: the loop body dereferences the module-level
openai binding on every poll, so a stream started under instance 0, with
the set-api-key route installing instance 1 between its first and second
poll, issues its second run fetch through the rotated instance 1 — not
through the instance 0 the claim says it captured at stream start. -/
theorem streamRun_inflight_poll_uses_rotated_client_cex :
    TraceItem.fetchRun 1 ∈ (streamRun rotatedEnv (fun _ => true) 2).1 ∧
    openaiAt 0 [(1, 1)] 0 = 0 ∧ (1 : Client) ≠ 0 := by decide

/-- C7 amended: every poll of an in-flight stream uses the value the
shared openai binding holds at the time of that poll — after a rotation
the next poll already uses the rotated client — rather than a reference
captured at stream start: the clients of the upstream requests are exactly
the per-poll binding values, in poll order. -/
theorem streamRun_polls_follow_live_client_binding
    (initial : Client) (rots : List (Nat × Client)) (env : Env) (st : Nat → String)
    (N j : Nat)
    (henv : env.clientAt = openaiAt initial rots)
    (hok : ∀ n, n ≤ N → env.runStatusVia (env.clientAt n) n = Except.ok (st n))
    (hpre : ∀ n, n < N → isTerminal (st n) = false)
    (hfail : isTerminalFailure (st N) = true) :
    (streamRun env (fun _ => true) (N + 1 + j)).1.filterMap itemClient =
      (List.range (N + 1)).map (openaiAt initial rots) := by
  have hfull := streamRun_failure_full env st N j
    (fun n hn => hok n (le_of_lt hn)) hpre (hok N le_rfl) hfail
  have htr : (streamRun env (fun _ => true) (N + 1 + j)).1 =
      runningTraceFrom env st 0 N ++
        [TraceItem.fetchRun (env.clientAt N), TraceItem.write (Event.status (st N)),
         TraceItem.write (Event.error ("Run " ++ st N)),
         TraceItem.write Event.done, TraceItem.close] := by
    rw [hfull]
  rw [htr, List.filterMap_append, filterMap_client_runningTraceFrom]
  simp [itemClient, List.range_succ, henv]

/-- Witness for the amended C7: with a rotation from instance 0 to
instance 1 before the second poll, the two polls go through instances 0
and 1 — the live binding values. -/
theorem streamRun_polls_follow_live_client_binding_witness :
    (streamRun rotatedEnv (fun _ => true) 2).1.filterMap itemClient =
      (List.range 2).map (openaiAt 0 [(1, 1)]) :=
  streamRun_polls_follow_live_client_binding 0 [(1, 1)] rotatedEnv
    (fun n => if n = 0 then "in_progress" else "failed") 1 0 rfl
    (fun n _ => rfl)
    (by intro n hn; interval_cases n; decide)
    (by decide)

/-- Positional default access commutes with map when the index is in
range. -/
theorem getD_map_of_lt {α β : Type} (f : α → β) (d : β) (dc : α) :
    ∀ (l : List α) (i : Nat), i < l.length → (l.map f).getD i d = f (l.getD i dc) := by
  intro l
  induction l with
  | nil =>
    intro i h
    simp at h
  | cons a l ih =>
    intro i h
    cases i with
    | zero => rfl
    | succ i =>
      have h2 : i < l.length := by simpa using h
      simpa using ih i h2

/-- C9: the tool-call dispatcher is total over its input list: it returns,
without rejecting, a list of the same length whose element at each index is
the record of that index's call id together with a JSON-serialized output
string; an unknown function name yields the stringified error object naming
the unknown function, and a throwing parse or function application yields
the stringified error object naming the function and the message — never a
propagated exception. -/
theorem handleToolCalls_total_structured_outputs
    (g : String → Option (Json → Except String Json))
    (p : String → Except String Json)
    (calls : List ToolCall) (i : Nat) (hi : i < calls.length) :
    (handleToolCalls g p calls).length = calls.length ∧
    (handleToolCalls g p calls).getD i dummyToolOutput =
      handleToolCall g p (calls.getD i dummyToolCall) ∧
    ((handleToolCalls g p calls).getD i dummyToolOutput).tool_call_id =
      (calls.getD i dummyToolCall).id ∧
    (∃ jv : Json, ((handleToolCalls g p calls).getD i dummyToolOutput).output =
      jv.stringify) ∧
    (g (calls.getD i dummyToolCall).function.name = none →
      ((handleToolCalls g p calls).getD i dummyToolOutput).output =
        (Json.obj [("error", Json.str ("Unknown function: " ++
          (calls.getD i dummyToolCall).function.name))]).stringify) ∧
    (∀ fn msg, g (calls.getD i dummyToolCall).function.name = some fn →
      p (calls.getD i dummyToolCall).arguments = Except.error msg →
      ((handleToolCalls g p calls).getD i dummyToolOutput).output =
        (Json.obj [("error", Json.str ("Error executing " ++
          (calls.getD i dummyToolCall).function.name ++ ": " ++ msg))]).stringify) ∧
    (∀ fn v msg, g (calls.getD i dummyToolCall).function.name = some fn →
      p (calls.getD i dummyToolCall).arguments = Except.ok v →
      fn v = Except.error msg →
      ((handleToolCalls g p calls).getD i dummyToolOutput).output =
        (Json.obj [("error", Json.str ("Error executing " ++
          (calls.getD i dummyToolCall).function.name ++ ": " ++ msg))]).stringify) ∧
    (∀ fn v res, g (calls.getD i dummyToolCall).function.name = some fn →
      p (calls.getD i dummyToolCall).arguments = Except.ok v →
      fn v = Except.ok res →
      ((handleToolCalls g p calls).getD i dummyToolOutput).output = res.stringify) := by
  have hget : (handleToolCalls g p calls).getD i dummyToolOutput =
      handleToolCall g p (calls.getD i dummyToolCall) :=
    getD_map_of_lt (handleToolCall g p) dummyToolOutput dummyToolCall calls i hi
  refine ⟨by simp [handleToolCalls], hget, by rw [hget]; rfl, ?_, ?_, ?_, ?_, ?_⟩
  · rw [hget]
    unfold handleToolCall
    rcases hg : g (calls.getD i dummyToolCall).function.name with _ | fn
    · exact ⟨_, rfl⟩
    · rcases hp2 : p (calls.getD i dummyToolCall).arguments with msg | v
      · exact ⟨_, rfl⟩
      · rcases hf : fn v with msg | res
        · exact ⟨_, rfl⟩
        · exact ⟨_, rfl⟩
  · intro hg
    rw [hget]
    unfold handleToolCall
    rw [hg]
  · intro fn msg hg hp2
    rw [hget]
    unfold handleToolCall
    rw [hg, hp2]
  · intro fn v msg hg hp2 hf
    rw [hget]
    unfold handleToolCall
    rw [hg, hp2]
    simp [hf]
  · intro fn v res hg hp2 hf
    rw [hget]
    unfold handleToolCall
    rw [hg, hp2]
    simp [hf]

/-- Witness for C9: dispatching the example call list, the element at
index 0 is the per-call result of the dispatcher body. -/
theorem handleToolCalls_total_structured_outputs_witness :
    0 < exToolCalls.length ∧
    (handleToolCalls exGlobals exParse exToolCalls).getD 0 dummyToolOutput =
      handleToolCall exGlobals exParse (exToolCalls.getD 0 dummyToolCall) :=
  ⟨by decide,
   (handleToolCalls_total_structured_outputs exGlobals exParse exToolCalls 0 (by decide)).2.1⟩

/-- C10: every request reaching the upstream-post branch of the
upload-file handler with an accepted file fails with the fixed upload
error: the identifier OPENAI_API_KEY referenced while building the request
headers is bound by no declaration of the module, so the try block throws a
ReferenceError before the upstream post, making the upstream call, the
temporary-file deletion and the success response unreachable — whatever the
upstream would have answered. -/
theorem uploadFile_reference_error_always_fails
    (upstream : UploadedFile → Except JsError Json) (f : UploadedFile) :
    uploadFileHandler indexModuleScope upstream (some f) =
      ([], Except.error "Failed to upload file to OpenAI") := by
  have hres : resolveIdentifier indexModuleScope "OPENAI_API_KEY" =
      Except.error (JsError.referenceError ("OPENAI_API_KEY" ++ " is not defined")) := by
    unfold resolveIdentifier
    rw [if_neg (by decide)]
  simp [uploadFileHandler, uploadTryBlock, hres]

end AssistantsGateway
